import Mathlib

/-!
Verification development for the BPMNEnv-Aware plugin core
(task-kind state machine, connection classifier, graph validator,
change scheduler) of the eabpmn repository.

The JavaScript sources are shallowly embedded: plain objects holding
`$type`/`body` extension entries become the `ExtEntry` structure (the
`eid` field models JavaScript object identity, relevant only where the
source compares objects by reference, e.g. `Array.prototype.includes`);
business objects become `BO`; diagram elements are either a parent-chain
tree (`Shape`, for the bounded upward walks of SimpleBindingHandler) or
registry entries looked up by id (`VElem`, for the graph traversals of
ValidationService).  Fallible code returns `Except`, and the in-place
mutations of the services become functions returning the updated state
(paired with the number of model-mutation calls where write counting
matters).
-/

/-- One extension element (`{ $type, body }` moddle object).  `eid` models
JavaScript object identity: two distinct created objects carry distinct
`eid`s.  The services that never compare entries by reference create
entries with the default `eid := 0`. -/
structure ExtEntry where
  eid : Nat := 0
  type : String
  body : String
deriving Repr, DecidableEq

/-- A business object: its optional `extensionElements.values` list and its
`name`.  `exts = none` models an absent `extensionElements` container. -/
structure BO where
  exts : Option (List ExtEntry) := none
  name : Option String := none
deriving Repr, DecidableEq

/-! ## modules/TaskTypes.js -/

def TASK_TYPE_KEYS.MOVEMENT : String := "movement"

def TASK_TYPE_KEYS.BINDING : String := "binding"

def TASK_TYPE_KEYS.UNBINDING : String := "unbinding"

def EXTENSION_TYPES.TYPE : String := "space:Type"

def EXTENSION_TYPES.DESTINATION : String := "space:Destination"

def EXTENSION_TYPES.PARTICIPANT1 : String := "space:Participant1"

def EXTENSION_TYPES.PARTICIPANT2 : String := "space:Participant2"

def EXTENSION_TYPES.TASK_ASSIGNMENT : String := "space:TaskAssignment"

def EXTENSION_TYPES.TASK_ASSIGNMENT_REACHED : String := "space:TaskAssignmentReached"

/-- The `EXTENSION_TYPES` object of TaskTypes.js has no `BINDING` key, so the
JavaScript expression `EXTENSION_TYPES.BINDING` evaluates to `undefined`.
Embedded as `none` (an absent key). -/
def EXTENSION_TYPES.BINDING : Option String := none

/-- `list.includes(x)` where `x` may be `undefined`: on a list of strings,
`includes(undefined)` is `false`. -/
def jsIncludes (l : List String) : Option String → Bool
  | none => false
  | some s => l.contains s

/-- One entry of `TASK_TYPES_CONFIG` (the fields the core reads). -/
structure TaskConfig where
  key : String
  typeValue : String
  displayName : String
  extensionElements : List String
  defaultDestination : Option String := none
  validationRules : List String
  formType : String
deriving Repr, DecidableEq

def movementConfig : TaskConfig :=
  { key := TASK_TYPE_KEYS.MOVEMENT
    typeValue := "Movement"
    displayName := "Move to destination"
    extensionElements := [EXTENSION_TYPES.TYPE, EXTENSION_TYPES.DESTINATION,
      EXTENSION_TYPES.TASK_ASSIGNMENT, EXTENSION_TYPES.TASK_ASSIGNMENT_REACHED]
    defaultDestination := some "${destination}"
    validationRules := []
    formType := "destination" }

def bindingConfig : TaskConfig :=
  { key := TASK_TYPE_KEYS.BINDING
    typeValue := "Binding"
    displayName := "Binding"
    extensionElements := [EXTENSION_TYPES.TYPE,
      EXTENSION_TYPES.TASK_ASSIGNMENT, EXTENSION_TYPES.TASK_ASSIGNMENT_REACHED]
    validationRules := []
    formType := "none" }

def unbindingConfig : TaskConfig :=
  { key := TASK_TYPE_KEYS.UNBINDING
    typeValue := "Unbinding"
    displayName := "Unbinding"
    extensionElements := [EXTENSION_TYPES.TYPE,
      EXTENSION_TYPES.TASK_ASSIGNMENT, EXTENSION_TYPES.TASK_ASSIGNMENT_REACHED]
    validationRules := ["requiresUpstreamBinding"]
    formType := "none" }

/-- The member names every plain object literal inherits from
`Object.prototype`: indexing `TASK_TYPES_CONFIG[key]` at one of these
yields a truthy inherited value (a function, or `Object.prototype` itself
for `__proto__`), not `undefined`. -/
def OBJECT_PROTOTYPE_MEMBERS : List String :=
  ["constructor", "hasOwnProperty", "isPrototypeOf", "propertyIsEnumerable",
   "toLocaleString", "toString", "valueOf", "__proto__",
   "__defineGetter__", "__defineSetter__", "__lookupGetter__", "__lookupSetter__"]

/-- The possible results of the JavaScript lookup `TASK_TYPES_CONFIG[key]`:
one of the three declared config objects, a truthy value inherited from
`Object.prototype` (which is not a task config: all its config fields read
as `undefined`), or `undefined`. -/
inductive ConfigLookup where
  | config (c : TaskConfig)
  | protoMember
  | undefined
deriving Repr, DecidableEq

/-- `getTaskConfig = (key) => TASK_TYPES_CONFIG[key]`: plain-object key
lookup — the three own keys, then the prototype chain (`Object.prototype`'s
members are inherited by the object literal), then `undefined`. -/
def getTaskConfig (key : String) : ConfigLookup :=
  if key = TASK_TYPE_KEYS.MOVEMENT then ConfigLookup.config movementConfig
  else if key = TASK_TYPE_KEYS.BINDING then ConfigLookup.config bindingConfig
  else if key = TASK_TYPE_KEYS.UNBINDING then ConfigLookup.config unbindingConfig
  else if OBJECT_PROTOTYPE_MEMBERS.contains key then ConfigLookup.protoMember
  else ConfigLookup.undefined

/-- `requiresValidation(fromType, toType)` of TaskTypes.js. -/
def requiresValidation (fromType toType : String) : Bool :=
  if fromType = TASK_TYPE_KEYS.BINDING ∧ toType ≠ TASK_TYPE_KEYS.BINDING then true
  else if toType = TASK_TYPE_KEYS.UNBINDING then true
  else false

/-! ## services/ExtensionService.js -/

namespace ExtensionService

/-- `getExtensionValues(bo)`: `(bo.extensionElements && bo.extensionElements.values) || []`. -/
def getExtensionValues (bo : BO) : List ExtEntry :=
  bo.exts.getD []

/-- `findExtension(bo, type)`: first extension entry of the given `$type`. -/
def findExtension (bo : BO) (type : String) : Option ExtEntry :=
  (getExtensionValues bo).find? (fun v => v.type = type)

/-- `findExtension` applied to a possibly-`undefined` type key: `v.$type ===
undefined` is false for every (string-typed) entry. -/
def findExtensionK (bo : BO) : Option String → Option ExtEntry
  | none => none
  | some t => findExtension bo t

/-- `getText(element)`: `(element && (element.body ?? element.value)) || ""`.
Entries created by this plugin always carry `body` (the legacy `value`
property never occurs on them), and `"" || ""` is `""`, so the result is the
body, defaulting to the empty string. -/
def getText : Option ExtEntry → String
  | none => ""
  | some e => e.body

/-- `setExtension(element, type, value)`: ensures the `extensionElements`
container, then creates the entry if absent and otherwise updates the first
entry of that `$type` in place. -/
def setExtension (bo : BO) (type value : String) : BO :=
  let vals := getExtensionValues bo
  match vals.find? (fun v => v.type = type) with
  | none => { bo with exts := some (vals ++ [{ type := type, body := value }]) }
  | some _ =>
      { bo with exts := some (vals.map (fun v => if v.type = type then { v with body := value } else v)) }

/-- `removeExtensions(element, predicate)`: keeps the entries the predicate
rejects; the surrounding length check only suppresses a redundant write and
does not change the resulting state. -/
def removeExtensions (bo : BO) (predicate : ExtEntry → Bool) : BO :=
  match bo.exts with
  | none => bo
  | some existing => { bo with exts := some (existing.filter (fun v => ¬ predicate v)) }

/-- `String(x).toLowerCase()`, as a character-wise map (equivalent to
`String.toLower`, but stated on the character list so that concrete
instances evaluate). -/
def jsToLowerCase (s : String) : String :=
  String.mk (s.data.map Char.toLower)

/-- `getCurrentType(element)`: the lowercased body of the `space:Type`
extension, or `""` when absent (`(typeEl && ...toLowerCase()) || ""`). -/
def getCurrentType (bo : BO) : String :=
  match findExtension bo EXTENSION_TYPES.TYPE with
  | none => ""
  | some e => jsToLowerCase e.body

/-- `getDestination(element)`. -/
def getDestination (bo : BO) : String :=
  getText (findExtension bo EXTENSION_TYPES.DESTINATION)

/-- `getBinding(element)`: looks the extension up under the nonexistent
`EXTENSION_TYPES.BINDING` key, hence always the empty string. -/
def getBinding (bo : BO) : String :=
  getText (findExtensionK bo EXTENSION_TYPES.BINDING)

end ExtensionService

/-! ## TaskTypeService (src/unnamed/part_001) -/

/-- The errors a `setTaskType` call can raise synchronously:
`ConfigurationError` is the guard's `throw new Error('Unknown task type...')`
(the spec's taxonomy name); `TypeError` is what actually escapes when the
kind key names an inherited `Object.prototype` member — the truthy inherited
lookup passes the `!config` guard and `cleanupIncompatibleExtensions` then
spreads `config.extensionElements`, which is `undefined`. -/
inductive TaskTypeError where
  | ConfigurationError (msg : String)
  | TypeError (msg : String)
deriving Repr, DecidableEq

namespace TaskTypeService

open ExtensionService

/-- `cleanupIncompatibleExtensions(element, config)`: removes every extension
whose `$type` is outside `[EXTENSION_TYPES.TYPE, ...config.extensionElements]`. -/
def cleanupIncompatibleExtensions (bo : BO) (config : TaskConfig) : BO :=
  let allowedTypes := EXTENSION_TYPES.TYPE :: config.extensionElements
  removeExtensions bo (fun v => ¬ allowedTypes.contains v.type)

/-- In the source this branch would call `bpmnFactory.create(undefined)` and
throw; it is unreachable because `EXTENSION_TYPES.BINDING` is `undefined` and
`includes(undefined)` is false on every config's string list (see
`no_config_lists_the_binding_extension`). -/
def initBindingPlaceholder (bo : BO) : BO := bo

/-- `initializeExtensions(element, config)`. -/
def initializeExtensions (bo : BO) (config : TaskConfig) : BO :=
  let bo1 :=
    if config.extensionElements.contains EXTENSION_TYPES.DESTINATION then
      match config.defaultDestination with
      | some d =>
          if getDestination bo = "" ∧ d ≠ "" then
            setExtension bo EXTENSION_TYPES.DESTINATION d
          else bo
      | none => bo
    else bo
  if jsIncludes config.extensionElements EXTENSION_TYPES.BINDING then
    if getBinding bo1 = "" then initBindingPlaceholder bo1 else bo1
  else bo1

/-- `handleSpecificTransitions` only logs (all four ordered-pair hooks are
notification-only today), so it leaves the element's metadata unchanged. -/
def handleSpecificTransitions (bo : BO) (_previousType _newType : String) : BO := bo

/-- `handleTypeTransition(element, previousType, newType, config)`. -/
def handleTypeTransition (bo : BO) (previousType newType : String) (config : TaskConfig) : BO :=
  handleSpecificTransitions (initializeExtensions (cleanupIncompatibleExtensions bo config) config)
    previousType newType

/-- `setTaskType(element, typeKey)`: returns the outcome (thrown error or
success) together with the element's resulting metadata.  An `undefined`
lookup throws the guard's error before any mutation, returning the input
unchanged.  A truthy inherited `Object.prototype` member passes the
`!config` guard instead: the kind extension is written, and then
`cleanupIncompatibleExtensions` throws a `TypeError` while spreading
`config.extensionElements` (`undefined` on the inherited value) — after the
metadata write, before any further change. -/
def setTaskType (bo : BO) (typeKey : String) : Except TaskTypeError Unit × BO :=
  match getTaskConfig typeKey with
  | ConfigLookup.undefined =>
      (Except.error (TaskTypeError.ConfigurationError ("Unknown task type: " ++ typeKey)), bo)
  | ConfigLookup.protoMember =>
      (Except.error (TaskTypeError.TypeError "config.extensionElements is not iterable"),
        setExtension bo EXTENSION_TYPES.TYPE typeKey)
  | ConfigLookup.config config =>
      let previousType := getCurrentType bo
      let bo1 := setExtension bo EXTENSION_TYPES.TYPE typeKey
      (Except.ok (), handleTypeTransition bo1 previousType typeKey config)

end TaskTypeService

/-! ## modules/SimpleBindingHandler.js

Diagram shapes, for the handler's bounded upward containment walks: a shape
carries its id, its diagram `type`, its business object and its parent.
Shapes form finite parent chains (a parent cycle and a chain longer than the
walk bound behave identically: the depth-limited walk returns `null`). -/

inductive Shape where
  | mk (id : String) (ty : String) (bo : BO) (parent : Option Shape)

def Shape.id : Shape → String
  | .mk i _ _ _ => i

def Shape.ty : Shape → String
  | .mk _ t _ _ => t

def Shape.bo : Shape → BO
  | .mk _ _ b _ => b

def Shape.parent : Shape → Option Shape
  | .mk _ _ _ p => p

/-- A message-flow connection as the handler sees it: `source`/`target` are
the endpoint shapes (possibly `null`), `bo` its business object. -/
structure Conn where
  id : String
  source : Option Shape
  target : Option Shape
  bo : Option BO

namespace SimpleBindingHandler

open ExtensionService

/-- The `while (current && depth < 10)` walk of `getParticipantId`, unrolled
on the remaining depth budget. -/
def participantWalk : Nat → Option Shape → Option String
  | 0, _ => none
  | _, none => none
  | budget + 1, some s =>
      if s.ty = "bpmn:Participant" then some s.id
      else participantWalk budget s.parent

/-- `getParticipantId(element)`: nearest `bpmn:Participant` ancestor id
within the fixed traversal depth of 10, else `null`. -/
def getParticipantId (element : Option Shape) : Option String :=
  participantWalk 10 element

/-- `determineConnectionType(connection)`: `null` unless both endpoints are
present `bpmn:Task` shapes; otherwise `binding`/`unbinding` when both
endpoint kinds agree on that value, else `null`.  The `connection?.source?.type`
guard also rejects an empty (falsy) `type` string. -/
def determineConnectionType (c : Conn) : Option String :=
  match c.source, c.target with
  | some s, some t =>
      if s.ty = "" ∨ t.ty = "" then none
      else if s.ty ≠ "bpmn:Task" ∨ t.ty ≠ "bpmn:Task" then none
      else
        let sourceType := getCurrentType s.bo
        let targetType := getCurrentType t.bo
        if sourceType = TASK_TYPE_KEYS.BINDING ∧ targetType = TASK_TYPE_KEYS.BINDING then
          some TASK_TYPE_KEYS.BINDING
        else if sourceType = TASK_TYPE_KEYS.UNBINDING ∧ targetType = TASK_TYPE_KEYS.UNBINDING then
          some TASK_TYPE_KEYS.UNBINDING
        else none
  | _, _ => none

/-- `getStoredType(connection)`: `typeElement?.body || null` (an empty body
is falsy and yields `null`). -/
def getStoredType (c : Conn) : Option String :=
  match c.bo with
  | none => none
  | some bo =>
      match findExtension bo EXTENSION_TYPES.TYPE with
      | none => none
      | some e => if e.body = "" then none else some e.body

/-- `getStoredParticipant1(connection)`. -/
def getStoredParticipant1 (c : Conn) : Option String :=
  match c.bo with
  | none => none
  | some bo =>
      match findExtension bo EXTENSION_TYPES.PARTICIPANT1 with
      | none => none
      | some e => if e.body = "" then none else some e.body

/-- `getStoredParticipant2(connection)`. -/
def getStoredParticipant2 (c : Conn) : Option String :=
  match c.bo with
  | none => none
  | some bo =>
      match findExtension bo EXTENSION_TYPES.PARTICIPANT2 with
      | none => none
      | some e => if e.body = "" then none else some e.body

/-- `needsUpdate(connection)`: `false` without a business object, else
whether any of the three stored fields differs from the freshly derived one. -/
def needsUpdate (c : Conn) : Bool :=
  match c.bo with
  | none => false
  | some _ =>
      getStoredType c ≠ determineConnectionType c ∨
      getStoredParticipant1 c ≠ getParticipantId c.source ∨
      getStoredParticipant2 c ≠ getParticipantId c.target

/-- `hasConnectionData(businessObject)`: some `space:Type` entry whose body
is `binding` or `unbinding`. -/
def hasConnectionData : Option BO → Bool
  | none => false
  | some bo =>
      (getExtensionValues bo).any (fun v =>
        v.type = EXTENSION_TYPES.TYPE ∧
        (v.body = TASK_TYPE_KEYS.BINDING ∨ v.body = TASK_TYPE_KEYS.UNBINDING))

/-- `clearConnectionData(businessObject)`: drops the `space:Type`,
`space:Participant1` and `space:Participant2` entries (no-op without a
container). -/
def clearConnectionData (bo : BO) : BO :=
  match bo.exts with
  | none => bo
  | some vs =>
      { bo with exts := some (vs.filter (fun v =>
          v.type ≠ EXTENSION_TYPES.TYPE ∧
          v.type ≠ EXTENSION_TYPES.PARTICIPANT1 ∧
          v.type ≠ EXTENSION_TYPES.PARTICIPANT2)) }

/-- `addConnectionData(connection, connectionType)`: resolves both endpoint
pool ids first and aborts without writing when either is falsy; otherwise
ensures the container, clears the previous classification entries and appends
the new type and the two pool references, finishing with one
`updateModdleProperties` call.  Returns the resulting business object and the
number of model mutations performed. -/
def addConnectionData (c : Conn) (connectionType : String) : Option BO × Nat :=
  match c.bo with
  | none => (none, 0)
  | some bo =>
      let sourceParticipantId := getParticipantId c.source
      let targetParticipantId := getParticipantId c.target
      if sourceParticipantId.getD "" = "" ∨ targetParticipantId.getD "" = "" then
        (some bo, 0)
      else
        let typeElement : ExtEntry := { type := EXTENSION_TYPES.TYPE, body := connectionType }
        let sourceRefElement : ExtEntry :=
          { type := EXTENSION_TYPES.PARTICIPANT1, body := sourceParticipantId.getD "" }
        let targetRefElement : ExtEntry :=
          { type := EXTENSION_TYPES.PARTICIPANT2, body := targetParticipantId.getD "" }
        let containerWrites := if bo.exts = none then 1 else 0
        let bo1 : BO := { bo with exts := some (bo.exts.getD []) }
        let bo2 := clearConnectionData bo1
        let newExts := some ((bo2.exts.getD []) ++ [typeElement, sourceRefElement, targetRefElement])
        let bo3 : BO := { bo2 with exts := newExts }
        (some bo3, containerWrites + 1)

/-- `clearAndUpdate(connection)`: clear then one `updateModdleProperties`. -/
def clearAndUpdate (c : Conn) : Option BO × Nat :=
  match c.bo with
  | none => (none, 0)
  | some bo => (some (clearConnectionData bo), 1)

/-- `checkAndAddConnectionData(connection)` — the non-forced reconciliation
pass: no-op unless `needsUpdate`, then either write the derived
classification or clear a stale one.  Returns the resulting business object
and the number of model mutations. -/
def checkAndAddConnectionData (c : Conn) : Option BO × Nat :=
  if ¬ needsUpdate c then (c.bo, 0)
  else
    match determineConnectionType c with
    | some connectionType => addConnectionData c connectionType
    | none => if hasConnectionData c.bo then clearAndUpdate c else (c.bo, 0)

end SimpleBindingHandler

/-! ## SimpleBindingHandler's change scheduler

`scheduleUpdate` keeps one shared `_updateTimeout` for the whole handler:
every call clears the previously set timeout and installs a new one whose
callback processes only the connection of that call.  The state below records
the in-flight id set (`_processingConnections`) and the single pending
timeout's captured arguments; when the debounce delay elapses the one stored
callback runs, i.e. exactly `updateTimeout`'s connection is processed. -/

structure HandlerState where
  processingConnections : List String
  updateTimeout : Option (String × Bool)
deriving Repr, DecidableEq

namespace SimpleBindingHandler

/-- `scheduleUpdate(connection, forceUpdate)`: returns unchanged for a falsy
connection id, or when the connection is in flight and the update is not
forced; otherwise clears the shared timeout and schedules this connection. -/
def scheduleUpdate (st : HandlerState) (connId : String) (forceUpdate : Bool) : HandlerState :=
  if connId = "" then st
  else if st.processingConnections.contains connId ∧ ¬ forceUpdate then st
  else { st with updateTimeout := some (connId, forceUpdate) }

/-- The `import.done` listener: enumerates the registry's message-flow-typed
elements (given as id/type pairs) and calls `scheduleUpdate` on each in
order. -/
def importDone (registry : List (String × String)) (st : HandlerState) : HandlerState :=
  ((registry.filter (fun e => e.2 = "bpmn:MessageFlow")).map (fun e => e.1)).foldl
    (fun s c => scheduleUpdate s c false) st

/-- The connections actually processed once the debounce delay elapses: the
single stored timeout fires once, on its captured connection. -/
def firedConnections (st : HandlerState) : List String :=
  match st.updateTimeout with
  | none => []
  | some (connId, _) => [connId]

end SimpleBindingHandler

/-! ## services/ValidationService.js

Diagram elements for the validator's graph traversals, kept in a registry
(`List VElem`) and connected by ids: `incoming`/`outgoing` list flow element
ids, a flow's `source`/`target` name element ids, `parent` is the containing
element, `procId` is the id of the business object's `$parent` process, and
`processRefId` is a participant's `processRef.id`. -/

structure VElem where
  id : String
  ty : String
  bo : BO := {}
  procId : Option String := none
  processRefId : Option String := none
  parent : Option String := none
  incoming : List String := []
  outgoing : List String := []
  source : Option String := none
  target : Option String := none
deriving Repr, DecidableEq

/-- Registry lookup by element id (`elementRegistry`; diagram element ids are
unique). -/
def elemById (reg : List VElem) (i : String) : Option VElem :=
  reg.find? (fun e => e.id = i)

namespace ValidationService

open ExtensionService

/-- `getContainingParticipant(element)`: the first registered
`bpmn:Participant` whose `processRef.id` equals the id of the element's
owning process (`element?.businessObject?.$parent`); `null` when the process
or its id is missing/falsy. -/
def getContainingParticipant (reg : List VElem) (element : VElem) : Option VElem :=
  match element.procId with
  | none => none
  | some pid =>
      if pid = "" then none
      else reg.find? (fun e => e.ty = "bpmn:Participant" ∧ e.processRefId = some pid)

/-- `isDescendantOf(child, ancestor)`: walk the `parent` chain comparing
object identity (ids).  The chain walk is bounded by the registry size plus
one, which covers every acyclic parent chain. -/
def isDescendantOf (reg : List VElem) : Nat → Option String → String → Bool
  | 0, _, _ => false
  | _ + 1, none, _ => false
  | budget + 1, some currentId, ancestorId =>
      if currentId = ancestorId then true
      else
        match elemById reg currentId with
        | none => false
        | some current => isDescendantOf reg budget current.parent ancestorId

/-- One step of `findUpstreamBindingTasks`' inner `for` loop over a node's
incoming sequence flows: skip a missing or out-of-pool source, collect it
when it is a `binding` task, and push it on the stack.  The state is the
pair (stack, collected binding tasks); the stack's head is its top (the end
of the JavaScript array). -/
def visitUpstreamFlow (reg : List VElem) (poolId : String)
    (sa : List String × List VElem) (flow : VElem) : List String × List VElem :=
  match flow.source with
  | none => sa
  | some sourceId =>
      match elemById reg sourceId with
      | none => sa
      | some source =>
          if ¬ isDescendantOf reg (reg.length + 1) (some source.id) poolId then sa
          else
            let collected :=
              if source.ty = "bpmn:Task" ∧ getCurrentType source.bo = TASK_TYPE_KEYS.BINDING then
                sa.2 ++ [source]
              else sa.2
            (source.id :: sa.1, collected)

/-- The `while (stack.length)` loop of `findUpstreamBindingTasks`, on a fuel
budget large enough for every actual run (each visited node is processed
once; revisits and unknown ids are popped without effect). -/
def upstreamLoop (reg : List VElem) (poolId : String) :
    Nat → List String → List String → List VElem → List VElem
  | 0, _, _, bindingTasks => bindingTasks
  | _ + 1, [], _, bindingTasks => bindingTasks
  | fuel + 1, nodeId :: rest, visited, bindingTasks =>
      match elemById reg nodeId with
      | none => upstreamLoop reg poolId fuel rest visited bindingTasks
      | some node =>
          if visited.contains node.id then
            upstreamLoop reg poolId fuel rest visited bindingTasks
          else
            let incoming :=
              (node.incoming.filterMap (elemById reg)).filter (fun c => c.ty = "bpmn:SequenceFlow")
            let next := incoming.foldl (visitUpstreamFlow reg poolId) (rest, bindingTasks)
            upstreamLoop reg poolId fuel next.1 (node.id :: visited) next.2

/-- `findUpstreamBindingTasks(element)`: backward depth-first search along
same-pool sequence flows from the element, collecting the `binding`-kind
tasks encountered as flow sources; `[]` without a containing pool. -/
def findUpstreamBindingTasks (reg : List VElem) (element : VElem) : List VElem :=
  match getContainingParticipant reg element with
  | none => []
  | some pool =>
      upstreamLoop reg pool.id ((reg.length + 1) * (reg.length + 1) + 1) [element.id] [] []

/-- One step of `findDependentUnbindingTasks`' inner loop over a node's
outgoing sequence flows, collecting `unbinding` tasks. -/
def visitDownstreamFlow (reg : List VElem) (poolId : String)
    (sa : List String × List VElem) (flow : VElem) : List String × List VElem :=
  match flow.target with
  | none => sa
  | some targetId =>
      match elemById reg targetId with
      | none => sa
      | some target =>
          if ¬ isDescendantOf reg (reg.length + 1) (some target.id) poolId then sa
          else
            let collected :=
              if target.ty = "bpmn:Task" ∧ getCurrentType target.bo = TASK_TYPE_KEYS.UNBINDING then
                sa.2 ++ [target]
              else sa.2
            (target.id :: sa.1, collected)

/-- The traversal loop of `findDependentUnbindingTasks`. -/
def downstreamLoop (reg : List VElem) (poolId : String) :
    Nat → List String → List String → List VElem → List VElem
  | 0, _, _, dependentTasks => dependentTasks
  | _ + 1, [], _, dependentTasks => dependentTasks
  | fuel + 1, nodeId :: rest, visited, dependentTasks =>
      match elemById reg nodeId with
      | none => downstreamLoop reg poolId fuel rest visited dependentTasks
      | some node =>
          if visited.contains node.id then
            downstreamLoop reg poolId fuel rest visited dependentTasks
          else
            let outgoing :=
              (node.outgoing.filterMap (elemById reg)).filter (fun c => c.ty = "bpmn:SequenceFlow")
            let next := outgoing.foldl (visitDownstreamFlow reg poolId) (rest, dependentTasks)
            downstreamLoop reg poolId fuel next.1 (node.id :: visited) next.2

/-- `findDependentUnbindingTasks(bindingElement)`: forward depth-first search
along same-pool sequence flows, collecting the `unbinding`-kind tasks. -/
def findDependentUnbindingTasks (reg : List VElem) (element : VElem) : List VElem :=
  match getContainingParticipant reg element with
  | none => []
  | some pool =>
      downstreamLoop reg pool.id ((reg.length + 1) * (reg.length + 1) + 1) [element.id] [] []

end ValidationService

/-- A validation warning value `{type, severity, message, suggestion,
affectedTasks?}` (`affectedTasks` is absent on the upstream warning). -/
structure VWarning where
  type : String
  severity : String
  message : String
  suggestion : String
  affectedTasks : Option (List VElem) := none
deriving Repr, DecidableEq

/-- `businessObject.name || task.id` (a missing or empty name is falsy). -/
def jsOr (o : Option String) (fallback : String) : String :=
  match o with
  | none => fallback
  | some s => if s = "" then fallback else s

namespace ValidationService

open ExtensionService

/-- `getUpstreamBindingWarning(element, translate)`. -/
def getUpstreamBindingWarning (reg : List VElem) (element : VElem)
    (translate : String → String) : Option VWarning :=
  let upstreamBindings := findUpstreamBindingTasks reg element
  if upstreamBindings.length = 0 then
    some { type := "missing_upstream_binding"
           severity := "warning"
           message := translate "No preceding Binding task found in the same pool. Consider adding a Binding task before this Unbinding."
           suggestion := translate "Add a Binding task earlier in the flow to establish what should be unbound." }
  else none

/-- `getDownstreamUnbindingWarning(element, translate, currentType,
newTypeKey)`: the `orphaned_unbinding` warning, listing up to three affected
task names plus an ellipsis marker when more exist.  (Reachable only through
the `noDownstreamUnbinding` rule, which no task-type config lists.) -/
def getDownstreamUnbindingWarning (reg : List VElem) (element : VElem)
    (translate : String → String) (currentType newTypeKey : String) : Option VWarning :=
  if currentType = TASK_TYPE_KEYS.BINDING ∧ newTypeKey ≠ TASK_TYPE_KEYS.BINDING then
    let dependentUnbindings := findDependentUnbindingTasks reg element
    if dependentUnbindings.length > 0 then
      let taskNames :=
        String.intercalate ", " ((dependentUnbindings.map (fun task => jsOr task.bo.name task.id)).take 3)
      let suffix := if dependentUnbindings.length > 3 then "..." else ""
      some { type := "orphaned_unbinding"
             severity := "warning"
             message := translate ("This change will leave Unbinding tasks without a corresponding Binding: " ++ taskNames ++ suffix)
             suggestion := translate "Consider changing those Unbinding tasks to a different type or keeping this as a Binding task."
             affectedTasks := some dependentUnbindings }
    else none
  else none

/-- `getBindingChangeWarning(element, translate)`: the informational
`binding_change_impact` advisory listing every dependent Unbinding task. -/
def getBindingChangeWarning (reg : List VElem) (element : VElem)
    (translate : String → String) : Option VWarning :=
  let dependentUnbindings := findDependentUnbindingTasks reg element
  if dependentUnbindings.length > 0 then
    let taskInfo :=
      String.intercalate ", "
        (dependentUnbindings.map (fun task => "\"" ++ jsOr task.bo.name task.id ++ "\""))
    some { type := "binding_change_impact"
           severity := "info"
           message := translate ("Changing this Binding will affect these Unbinding tasks: " ++ taskInfo)
           suggestion := translate "Make sure this change aligns with your process design."
           affectedTasks := some dependentUnbindings }
  else none

/-- `applyValidationWarning(element, rule, translate, currentType,
newTypeKey)`: dispatch on the rule name; unknown rules yield nothing. -/
def applyValidationWarning (reg : List VElem) (element : VElem) (rule : String)
    (translate : String → String) (currentType newTypeKey : String) : Option VWarning :=
  if rule = "requiresUpstreamBinding" then
    getUpstreamBindingWarning reg element translate
  else if rule = "noDownstreamUnbinding" then
    getDownstreamUnbindingWarning reg element translate currentType newTypeKey
  else none

/-- `getValidationWarnings(element, newTypeKey, currentType, translate)`:
the new type's configured rule warnings in order, then (when leaving
`binding`) the binding-change advisory.  Callers guarantee `newTypeKey` has
a config; a non-config lookup contributes no rules. -/
def getValidationWarnings (reg : List VElem) (element : VElem)
    (newTypeKey currentType : String) (translate : String → String) : List VWarning :=
  let rules := match getTaskConfig newTypeKey with
    | ConfigLookup.config c => c.validationRules
    | _ => []
  let warnings := rules.filterMap
    (fun rule => applyValidationWarning reg element rule translate currentType newTypeKey)
  if currentType = TASK_TYPE_KEYS.BINDING ∧ newTypeKey ≠ TASK_TYPE_KEYS.BINDING then
    warnings ++ (getBindingChangeWarning reg element translate).toList
  else warnings

end ValidationService

/-! ## services/AssignmentService.js

Assignments are stored as two parallel extension lists paired by position:
`space:TaskAssignment` entries hold conditions and
`space:TaskAssignmentReached` entries hold values. -/

/-- One logical assignment as `getAssignments` reports it. -/
structure Assignment where
  aid : String
  condition : String
  value : String
deriving Repr, DecidableEq

namespace AssignmentService

open ExtensionService

/-- `getAssignments(element)`: pair the filtered condition and value entries
by position, padding the shorter side with empty strings. -/
def getAssignments (bo : BO) : List Assignment :=
  let extensions := getExtensionValues bo
  let conditions := extensions.filter (fun ext => ext.type = EXTENSION_TYPES.TASK_ASSIGNMENT)
  let values := extensions.filter (fun ext => ext.type = EXTENSION_TYPES.TASK_ASSIGNMENT_REACHED)
  let maxLength := max conditions.length values.length
  (List.range maxLength).map (fun i =>
    { aid := "assignment_" ++ toString i
      condition := getText (conditions.get? i)
      value := getText (values.get? i) })

/-- `addAssignment(element, condition, value)`: ensure the container, create
a condition entry and a value entry (`nextId` supplies the identities of the
two freshly created moddle objects) and append both.  Returns the updated
business object and the next fresh identity. -/
def addAssignment (bo : BO) (nextId : Nat) (condition value : String) : BO × Nat :=
  let currentValues := bo.exts.getD []
  let conditionExt : ExtEntry :=
    { eid := nextId, type := EXTENSION_TYPES.TASK_ASSIGNMENT, body := condition }
  let valueExt : ExtEntry :=
    { eid := nextId + 1, type := EXTENSION_TYPES.TASK_ASSIGNMENT_REACHED, body := value }
  ({ bo with exts := some (currentValues ++ [conditionExt, valueExt]) }, nextId + 2)

/-- `removeAssignment(element, index)`: drop the condition entry and the
value entry at the index (when they exist) from the extension list;
`toRemove.includes(ext)` compares object identity, embedded as `ExtEntry`
equality (faithful when entry identities are distinct).  Without a container
the `updateModdleProperties` call fails inside the `try` and the state is
unchanged. -/
def removeAssignment (bo : BO) (index : Nat) : BO :=
  match bo.exts with
  | none => bo
  | some extensions =>
      let conditions := extensions.filter (fun ext => ext.type = EXTENSION_TYPES.TASK_ASSIGNMENT)
      let values := extensions.filter (fun ext => ext.type = EXTENSION_TYPES.TASK_ASSIGNMENT_REACHED)
      let toRemove := (conditions.get? index).toList ++ (values.get? index).toList
      { bo with exts := some (extensions.filter (fun ext => ¬ toRemove.contains ext)) }

/-- The number of stored condition entries. -/
def conditionCount (bo : BO) : Nat :=
  ((bo.exts.getD []).filter (fun ext => ext.type = EXTENSION_TYPES.TASK_ASSIGNMENT)).length

/-- The number of stored value entries. -/
def valueCount (bo : BO) : Nat :=
  ((bo.exts.getD []).filter (fun ext => ext.type = EXTENSION_TYPES.TASK_ASSIGNMENT_REACHED)).length

end AssignmentService

/-! ## Concrete diagram fixtures used by witnesses and counterexamples -/

/-- A business object whose task kind is `binding`. -/
def bindingBO : BO := { exts := some [{ type := "space:Type", body := "binding" }] }

/-- A business object whose task kind is `unbinding`. -/
def unbindingBO : BO := { exts := some [{ type := "space:Type", body := "unbinding" }] }

/-- A business object whose task kind is `movement`. -/
def movementBO : BO := { exts := some [{ type := "space:Type", body := "movement" }] }

/-- Pool `P`, referencing process `proc`. -/
def partP : VElem := { id := "P", ty := "bpmn:Participant", processRefId := some "proc" }

/-- Task `A` (kind Binding) in pool `P`, source of sequence flow `f1`. -/
def taskA : VElem :=
  { id := "A", ty := "bpmn:Task", bo := bindingBO, procId := some "proc",
    parent := some "P", outgoing := ["f1"] }

/-- Task `B` (no rule-relevant kind) in pool `P`, between `f1` and `f2`. -/
def taskB : VElem :=
  { id := "B", ty := "bpmn:Task", procId := some "proc", parent := some "P",
    incoming := ["f1"], outgoing := ["f2"] }

/-- Task `C` (kind Unbinding) in pool `P`, target of sequence flow `f2`. -/
def taskC : VElem :=
  { id := "C", ty := "bpmn:Task", bo := unbindingBO, procId := some "proc",
    parent := some "P", incoming := ["f2"] }

/-- Sequence flow `A → B`. -/
def flow1 : VElem :=
  { id := "f1", ty := "bpmn:SequenceFlow", parent := some "P",
    source := some "A", target := some "B" }

/-- Sequence flow `B → C`. -/
def flow2 : VElem :=
  { id := "f2", ty := "bpmn:SequenceFlow", parent := some "P",
    source := some "B", target := some "C" }

/-- The pool-`P` chain `A → B → C` diagram. -/
def regChain : List VElem := [partP, taskA, taskB, taskC, flow1, flow2]

/-- Task `T` (kind Binding) in pool `P`, with a self-loop sequence flow. -/
def taskT : VElem :=
  { id := "T", ty := "bpmn:Task", bo := bindingBO, procId := some "proc",
    parent := some "P", incoming := ["fT"], outgoing := ["fT"] }

/-- The self-loop sequence flow `T → T`. -/
def flowT : VElem :=
  { id := "fT", ty := "bpmn:SequenceFlow", parent := some "P",
    source := some "T", target := some "T" }

/-- A diagram whose only task has a self-loop sequence flow. -/
def regLoop : List VElem := [partP, taskT, flowT]

/-- Pool shape `Pool1` (for the handler's parent-chain walks). -/
def poolShape1 : Shape := .mk "Pool1" "bpmn:Participant" {} none

/-- Pool shape `Pool2`. -/
def poolShape2 : Shape := .mk "Pool2" "bpmn:Participant" {} none

/-- Task shape `X` (kind Binding) inside `Pool1`. -/
def taskX : Shape := .mk "X" "bpmn:Task" bindingBO (some poolShape1)

/-- Task shape `Y` (kind Binding) inside `Pool2`. -/
def taskY : Shape := .mk "Y" "bpmn:Task" bindingBO (some poolShape2)

/-- Task shape `Y` after its kind changed to Movement. -/
def taskYmv : Shape := .mk "Y" "bpmn:Task" movementBO (some poolShape2)

/-- A task shape with no participant ancestor. -/
def orphanTaskX : Shape := .mk "X" "bpmn:Task" bindingBO none

/-- A connection business object storing the engine-written triple
(classification `binding`, pool references `Pool1`/`Pool2`). -/
def storedTriple : BO :=
  { exts := some
      [ { type := "space:Type", body := "binding" },
        { type := "space:Participant1", body := "Pool1" },
        { type := "space:Participant2", body := "Pool2" } ] }

/-- A message flow whose stored metadata already matches its derived
classification and pool references. -/
def consistentConn : Conn :=
  { id := "mf1", source := some taskX, target := some taskY, bo := some storedTriple }

/-- A message flow with a stale stored `binding` triple after its target's
kind changed to Movement. -/
def staleConn : Conn :=
  { id := "mf2", source := some taskX, target := some taskYmv, bo := some storedTriple }

/-- A message flow between two Binding tasks whose source has no resolvable
pool. -/
def danglingConn : Conn :=
  { id := "mf3", source := some orphanTaskX, target := some taskY, bo := some { exts := some [] } }

/-- Both endpoints of the connection are present `bpmn:Task` shapes whose
current kind is `kind` (the spec's "both endpoints are tasks whose current
kind is ..."). -/
def bothTaskEndpointsOfKind (c : Conn) (kind : String) : Bool :=
  match c.source, c.target with
  | some s, some t =>
      s.ty = "bpmn:Task" ∧ t.ty = "bpmn:Task" ∧
      ExtensionService.getCurrentType s.bo = kind ∧ ExtensionService.getCurrentType t.bo = kind
  | _, _ => false

/-- The classification and cached pool-reference metadata entries are absent
entirely: no `space:Type`, `space:Participant1` or `space:Participant2`
entry exists. -/
def noClassificationEntries : Option BO → Bool
  | none => true
  | some bo => (ExtensionService.getExtensionValues bo).all (fun v =>
      v.type ≠ EXTENSION_TYPES.TYPE ∧ v.type ≠ EXTENSION_TYPES.PARTICIPANT1 ∧
      v.type ≠ EXTENSION_TYPES.PARTICIPANT2)

/-- The stored classification is in a shape the engine itself produces:
either no classification entries are present, or the first stored
`space:Type` entry reads `binding` or `unbinding` (the engine only ever
writes these two values, clearing everything otherwise; the spec forbids
hand-editing them). -/
def engineShapedStored (c : Conn) : Prop :=
  noClassificationEntries c.bo = true ∨
  SimpleBindingHandler.getStoredType c = some TASK_TYPE_KEYS.BINDING ∨
  SimpleBindingHandler.getStoredType c = some TASK_TYPE_KEYS.UNBINDING

/-- A task with no pool membership. -/
def noPoolTask : VElem := { id := "Z", ty := "bpmn:Task" }

/-- The spec scenario's first step: add `(cond="p.x>5", val="p.y=0")` at
index 0 of a fresh task. -/
def assignmentScenarioStep1 : BO × Nat :=
  AssignmentService.addAssignment {} 0 "p.x>5" "p.y=0"

/-- The spec scenario's second step: add a second assignment at index 1. -/
def assignmentScenarioStep2 : BO × Nat :=
  AssignmentService.addAssignment assignmentScenarioStep1.1 assignmentScenarioStep1.2 "q.z<2" "q.w=1"

/-- The spec scenario's final state: remove the assignment at index 0. -/
def assignmentScenarioResult : BO :=
  AssignmentService.removeAssignment assignmentScenarioStep2.1 0

/-- No task-type config's `extensionElements` list contains the nonexistent
`EXTENSION_TYPES.BINDING` key, so the binding-placeholder branch of
`initializeExtensions` never runs. -/
theorem no_config_lists_the_binding_extension :
    jsIncludes movementConfig.extensionElements EXTENSION_TYPES.BINDING = false ∧
    jsIncludes bindingConfig.extensionElements EXTENSION_TYPES.BINDING = false ∧
    jsIncludes unbindingConfig.extensionElements EXTENSION_TYPES.BINDING = false := by
  exact ⟨rfl, rfl, rfl⟩

/-! ## Claim C8 -/

/-- Claim C8: in pool `P` containing the sequence-flow chain `A → B → C`,
where `A` has kind Binding, `B` has no rule-relevant kind, and `C` has kind
Unbinding, `findUpstreamBindingTasks(C)` returns exactly the set consisting
of `A`. -/
theorem C8_upstream_search_returns_exactly_A :
    ValidationService.findUpstreamBindingTasks regChain taskC = [taskA] := by
  decide

/-! ## Claim C3

The claim fails on the code: the `orphaned_unbinding` warning can only be
produced through the `noDownstreamUnbinding` validation rule, but no entry of
`TASK_TYPES_CONFIG` lists that rule (and `getValidationWarnings` reads the
rules of the *new* type's config anyway), so `getDownstreamUnbindingWarning`
is unreachable.  What a Binding-to-non-Binding change with dependent
Unbinding tasks actually produces is the informational
`binding_change_impact` advisory from `getBindingChangeWarning`.  Since the
rule registry of TaskTypes.js (`VALIDATION_RULES.noDownstreamUnbinding`,
declared as applying to Binding tasks) and the fully implemented but dead
`getDownstreamUnbindingWarning` both document the claimed behaviour, this is
a wiring slip in the code. -/

/-- Claim C3 (evaluated at the failing input): task `A` currently has kind
Binding and has a dependent Unbinding task `C`, yet validating the change of
`A` to `movement` produces only the `binding_change_impact`/`info` advisory
and no `orphaned_unbinding`/`warning` warning; the same holds for the change
to `unbinding`, which yields no warning at all (its upstream rule is
satisfied by `A` itself being preceded by no one — `C`'s perspective — so
the rule list contributes nothing for `A`). -/
theorem C3_orphaned_unbinding_warning_never_produced :
    ExtensionService.getCurrentType taskA.bo = TASK_TYPE_KEYS.BINDING ∧
    (ValidationService.findDependentUnbindingTasks regChain taskA).map VElem.id = ["C"] ∧
    (ValidationService.getValidationWarnings regChain taskA TASK_TYPE_KEYS.MOVEMENT
        TASK_TYPE_KEYS.BINDING (fun m => m)).map (fun w => (w.type, w.severity)) =
      [("binding_change_impact", "info")] ∧
    ((ValidationService.getValidationWarnings regChain taskA TASK_TYPE_KEYS.UNBINDING
        TASK_TYPE_KEYS.BINDING (fun m => m)).filter
        (fun w => w.type = "orphaned_unbinding")).length = 0 := by
  decide

/-! ## Claim C7

The movement half of the claim holds, but the binding half fails on the
code: `initializeExtensions` guards the binding placeholder with
`config.extensionElements.includes(EXTENSION_TYPES.BINDING)`, and
`EXTENSION_TYPES.BINDING` does not exist in TaskTypes.js (the lookup yields
`undefined`, and `includes(undefined)` is false on every config's list), so
the placeholder is never written — contradicting the code's own
"Initialize binding extension for binding tasks" comment. -/

/-- Claim C7 (evaluated at the failing input): after `setTaskType` with
`movement` on a fresh task, the placeholder destination is present; after
`setTaskType` with `binding` on a fresh task the resulting metadata is
exactly the kind entry — no empty binding placeholder attribute exists. -/
theorem C7_movement_default_set_but_binding_placeholder_missing :
    ExtensionService.getDestination
        (TaskTypeService.setTaskType {} TASK_TYPE_KEYS.MOVEMENT).2 = "${destination}" ∧
    (TaskTypeService.setTaskType ({} : BO) TASK_TYPE_KEYS.BINDING).2 =
      { exts := some [{ type := "space:Type", body := "binding" }] } := by
  decide

/-! ## Claim C10 -/

/-- Claim C10 (counterexample): for the Binding task `T` carrying a
self-loop sequence flow inside pool `P`, `findUpstreamBindingTasks(T)`
returns `[T]` — it contains `T` itself, and `T`'s own kind influenced the
result, refuting the claim. -/
theorem C10_counterexample_self_loop_collects_the_start_task :
    ValidationService.findUpstreamBindingTasks regLoop taskT = [taskT] := by
  decide

/-! ## Claim C6

The claim fails on the code: `scheduleUpdate` keeps one shared
`_updateTimeout` for all connections and clears it on every call, so when the
`import.done` handler schedules several message flows in one synchronous
burst, each call cancels the previous connection's pending reconciliation and
only the last-scheduled connection is processed once the delay elapses.  (The
spec itself records the single shared timer in §5 and §9.) -/

/-- Claim C6 (counterexample): importing a diagram with the two message
flows `f1` and `f2` leaves only `f2`'s reconciliation scheduled; `f1`'s
reconciliation never runs when the debounce delay elapses. -/
theorem C6_counterexample_only_last_import_flow_reconciled :
    SimpleBindingHandler.importDone
        [("f1", "bpmn:MessageFlow"), ("f2", "bpmn:MessageFlow")] ⟨[], none⟩ =
      ⟨[], some ("f2", false)⟩ ∧
    "f1" ∉ SimpleBindingHandler.firedConnections
        (SimpleBindingHandler.importDone
          [("f1", "bpmn:MessageFlow"), ("f2", "bpmn:MessageFlow")] ⟨[], none⟩) := by
  decide

/-- Folding `scheduleUpdate` over connection ids with nothing in flight:
each call overwrites the single shared timeout, so the final pending callback
is the last id (and the in-flight set is untouched). -/
theorem scheduleUpdate_foldl_last (ids : List String) :
    ∀ st : HandlerState, st.processingConnections = [] → (∀ i ∈ ids, i ≠ "") →
      (ids.foldl (fun s c => SimpleBindingHandler.scheduleUpdate s c false) st) =
        { st with updateTimeout :=
            match ids.getLast? with
            | none => st.updateTimeout
            | some lastId => some (lastId, false) } := by
  induction ids with
  | nil => intro st h1 _; simp
  | cons i rest ih =>
      intro st h1 h2
      have hi : i ≠ "" := h2 i (List.mem_cons_self i rest)
      have hstep : SimpleBindingHandler.scheduleUpdate st i false =
          { st with updateTimeout := some (i, false) } := by
        simp [SimpleBindingHandler.scheduleUpdate, hi, h1]
      rw [List.foldl_cons, hstep]
      rw [ih { st with updateTimeout := some (i, false) } h1
        (fun j hj => h2 j (List.mem_cons_of_mem i hj))]
      cases rest with
      | nil => simp
      | cons r rs =>
          cases h : (r :: rs).getLast? with
          | none => simp [List.getLast?_eq_none_iff] at h
          | some lastId => simp [h]

/-- Claim C6 (amended): after the bulk-import-finished notification,
`scheduleUpdate` is invoked once per message-flow-typed connection, but all
invocations share the handler's single debounce timer and each cancels the
previously pending one; with no connection in flight, once the delay elapses
exactly the last-scheduled message flow is reconciled (none when the diagram
has no message flows). -/
theorem C6_amended_shared_timer_fires_only_last (registry : List (String × String))
    (st : HandlerState) (h1 : st.processingConnections = [])
    (h2 : ∀ p ∈ registry, p.1 ≠ "") :
    SimpleBindingHandler.firedConnections (SimpleBindingHandler.importDone registry st) =
      match ((registry.filter (fun e => e.2 = "bpmn:MessageFlow")).map (fun e => e.1)).getLast? with
      | none => SimpleBindingHandler.firedConnections st
      | some lastId => [lastId] := by
  have h2' : ∀ i ∈ (registry.filter (fun e => e.2 = "bpmn:MessageFlow")).map
      (fun e => e.1), i ≠ "" := by
    intro i hi
    obtain ⟨p, hp, rfl⟩ := List.mem_map.mp hi
    exact h2 p (List.mem_of_mem_filter hp)
  unfold SimpleBindingHandler.importDone
  rw [scheduleUpdate_foldl_last _ st h1 h2']
  cases ((registry.filter (fun e => e.2 = "bpmn:MessageFlow")).map (fun e => e.1)).getLast? with
  | none => simp [SimpleBindingHandler.firedConnections]
  | some lastId => simp [SimpleBindingHandler.firedConnections]

/-- Claim C6 (amended, witness): the amended theorem applied to the
two-message-flow import with an idle handler. -/
theorem C6_amended_witness :
    (⟨[], none⟩ : HandlerState).processingConnections = [] ∧
    SimpleBindingHandler.firedConnections
        (SimpleBindingHandler.importDone
          [("f1", "bpmn:MessageFlow"), ("f2", "bpmn:MessageFlow")] ⟨[], none⟩) = ["f2"] := by
  refine ⟨rfl, ?_⟩
  exact C6_amended_shared_timer_fires_only_last
    [("f1", "bpmn:MessageFlow"), ("f2", "bpmn:MessageFlow")] ⟨[], none⟩ rfl (by decide)

/-! ## Claim C4

The claim fails on the code for kind keys that name an inherited
`Object.prototype` member: `TASK_TYPES_CONFIG['toString']` (likewise
`'constructor'`, `'valueOf'`, ...) is a truthy inherited value, so the
`if (!config) throw` guard of `setTaskType` is not taken; the stored kind is
then overwritten with the bogus key by `setExtension`, and only afterwards a
`TypeError` (not the guard's `ConfigurationError`) escapes from spreading
`config.extensionElements === undefined` in `cleanupIncompatibleExtensions`.
For every other key outside the closed set the claim's behaviour holds. -/

/-- Claim C4 (counterexample): `"toString"` is outside the closed kind set,
yet `setTaskType(task, "toString")` on a task of kind `binding` does not
throw the configuration error and does not leave the metadata unchanged: it
overwrites the stored kind with `toString` and then a `TypeError` escapes. -/
theorem C4_counterexample_prototype_key_mutates_then_type_errors :
    ("toString" ≠ TASK_TYPE_KEYS.MOVEMENT ∧ "toString" ≠ TASK_TYPE_KEYS.BINDING ∧
      "toString" ≠ TASK_TYPE_KEYS.UNBINDING) ∧
    TaskTypeService.setTaskType bindingBO "toString" =
      (Except.error (TaskTypeError.TypeError "config.extensionElements is not iterable"),
        { exts := some [{ type := "space:Type", body := "toString" }] }) ∧
    (TaskTypeService.setTaskType bindingBO "toString").2 ≠ bindingBO := by
  refine ⟨by decide, rfl, by decide⟩

/-- Claim C4 (amended): for every task and every kind key outside the closed
set that is not an inherited `Object.prototype` member name, `setTaskType`
raises the configuration error synchronously and returns the stored metadata
unchanged; for a key naming an inherited `Object.prototype` member, the
truthy inherited lookup passes the guard, the stored kind is overwritten
with the bogus key, and a `TypeError` from the extension-cleanup step
escapes instead. -/
theorem C4_amended_unknown_kind_behaviour :
    (∀ (bo : BO) (typeKey : String),
        typeKey ≠ TASK_TYPE_KEYS.MOVEMENT → typeKey ≠ TASK_TYPE_KEYS.BINDING →
        typeKey ≠ TASK_TYPE_KEYS.UNBINDING →
        OBJECT_PROTOTYPE_MEMBERS.contains typeKey = false →
        TaskTypeService.setTaskType bo typeKey =
          (Except.error (TaskTypeError.ConfigurationError ("Unknown task type: " ++ typeKey)),
            bo)) ∧
    (∀ (bo : BO) (typeKey : String),
        typeKey ≠ TASK_TYPE_KEYS.MOVEMENT → typeKey ≠ TASK_TYPE_KEYS.BINDING →
        typeKey ≠ TASK_TYPE_KEYS.UNBINDING →
        OBJECT_PROTOTYPE_MEMBERS.contains typeKey = true →
        TaskTypeService.setTaskType bo typeKey =
          (Except.error (TaskTypeError.TypeError "config.extensionElements is not iterable"),
            ExtensionService.setExtension bo EXTENSION_TYPES.TYPE typeKey)) := by
  constructor
  · intro bo typeKey h1 h2 h3 h4
    have h4' : typeKey ∉ OBJECT_PROTOTYPE_MEMBERS := by simpa using h4
    unfold TaskTypeService.setTaskType getTaskConfig
    simp [h1, h2, h3, h4']
  · intro bo typeKey h1 h2 h3 h4
    have h4' : typeKey ∈ OBJECT_PROTOTYPE_MEMBERS := by simpa using h4
    unfold TaskTypeService.setTaskType getTaskConfig
    simp [h1, h2, h3, h4']

/-- Claim C4 (amended, witness): the amended theorem applied at the spec's
`"teleport"` scenario (configuration error, metadata untouched) and at the
inherited member name `"toString"` (kind overwritten, `TypeError`). -/
theorem C4_amended_witness :
    (("teleport" ≠ TASK_TYPE_KEYS.MOVEMENT ∧ "teleport" ≠ TASK_TYPE_KEYS.BINDING ∧
        "teleport" ≠ TASK_TYPE_KEYS.UNBINDING ∧
        OBJECT_PROTOTYPE_MEMBERS.contains "teleport" = false) ∧
      TaskTypeService.setTaskType bindingBO "teleport" =
        (Except.error (TaskTypeError.ConfigurationError "Unknown task type: teleport"),
          bindingBO)) ∧
    (("toString" ≠ TASK_TYPE_KEYS.MOVEMENT ∧ "toString" ≠ TASK_TYPE_KEYS.BINDING ∧
        "toString" ≠ TASK_TYPE_KEYS.UNBINDING ∧
        OBJECT_PROTOTYPE_MEMBERS.contains "toString" = true) ∧
      TaskTypeService.setTaskType bindingBO "toString" =
        (Except.error (TaskTypeError.TypeError "config.extensionElements is not iterable"),
          ExtensionService.setExtension bindingBO EXTENSION_TYPES.TYPE "toString")) := by
  constructor
  · exact ⟨by decide, C4_amended_unknown_kind_behaviour.1 bindingBO "teleport"
      (by decide) (by decide) (by decide) (by decide)⟩
  · exact ⟨by decide, C4_amended_unknown_kind_behaviour.2 bindingBO "toString"
      (by decide) (by decide) (by decide) (by decide)⟩

/-! ## Claim C2 -/

/-- Claim C2: reconciling a connection whose stored classification and both
stored pool references already equal the derived classification and pool
references performs zero metadata writes and leaves the business object
untouched. -/
theorem C2_reconcile_consistent_connection_is_noop (c : Conn)
    (h1 : SimpleBindingHandler.getStoredType c = SimpleBindingHandler.determineConnectionType c)
    (h2 : SimpleBindingHandler.getStoredParticipant1 c =
      SimpleBindingHandler.getParticipantId c.source)
    (h3 : SimpleBindingHandler.getStoredParticipant2 c =
      SimpleBindingHandler.getParticipantId c.target) :
    SimpleBindingHandler.checkAndAddConnectionData c = (c.bo, 0) := by
  have hnu : SimpleBindingHandler.needsUpdate c = false := by
    cases hb : c.bo with
    | none => simp [SimpleBindingHandler.needsUpdate, hb]
    | some bo => simp [SimpleBindingHandler.needsUpdate, hb, h1, h2, h3]
  simp [SimpleBindingHandler.checkAndAddConnectionData, hnu]

/-- Claim C2 (witness): the theorem applied to a concrete consistent
connection (two Binding tasks in `Pool1`/`Pool2` with the matching stored
triple). -/
theorem C2_witness :
    (SimpleBindingHandler.getStoredType consistentConn =
        SimpleBindingHandler.determineConnectionType consistentConn ∧
      SimpleBindingHandler.getStoredParticipant1 consistentConn =
        SimpleBindingHandler.getParticipantId consistentConn.source ∧
      SimpleBindingHandler.getStoredParticipant2 consistentConn =
        SimpleBindingHandler.getParticipantId consistentConn.target) ∧
    SimpleBindingHandler.checkAndAddConnectionData consistentConn = (consistentConn.bo, 0) := by
  refine ⟨by decide, ?_⟩
  exact C2_reconcile_consistent_connection_is_noop consistentConn
    (by decide) (by decide) (by decide)

/-! ## Claim C5 -/

/-- Claim C5: when the derived classification is not `None` but either
endpoint's containing pool cannot be resolved, the reconciliation pass
writes nothing: the stored metadata is returned exactly as it was, with zero
model mutations. -/
theorem C5_unresolved_pool_reference_aborts_without_writing (c : Conn)
    (h1 : SimpleBindingHandler.determineConnectionType c ≠ none)
    (h2 : SimpleBindingHandler.getParticipantId c.source = none ∨
      SimpleBindingHandler.getParticipantId c.target = none) :
    SimpleBindingHandler.checkAndAddConnectionData c = (c.bo, 0) := by
  by_cases hnu : SimpleBindingHandler.needsUpdate c = true
  · unfold SimpleBindingHandler.checkAndAddConnectionData
    rw [hnu]
    cases hd : SimpleBindingHandler.determineConnectionType c with
    | none => exact absurd hd h1
    | some connectionType =>
        simp only [Bool.not_true, Bool.false_eq_true, if_false]
        cases hb : c.bo with
        | none => simp [SimpleBindingHandler.addConnectionData, hb]
        | some bo =>
            have hempty : (SimpleBindingHandler.getParticipantId c.source).getD "" = "" ∨
                (SimpleBindingHandler.getParticipantId c.target).getD "" = "" := by
              rcases h2 with h | h
              · exact Or.inl (by rw [h]; rfl)
              · exact Or.inr (by rw [h]; rfl)
            simp [SimpleBindingHandler.addConnectionData, hb, hempty]
  · have hnu' : SimpleBindingHandler.needsUpdate c = false := by
      cases h : SimpleBindingHandler.needsUpdate c
      · rfl
      · exact absurd h hnu
    simp [SimpleBindingHandler.checkAndAddConnectionData, hnu']

/-- Claim C5 (witness): the theorem applied to a connection between two
Binding tasks whose source task has no participant ancestor. -/
theorem C5_witness :
    (SimpleBindingHandler.determineConnectionType danglingConn ≠ none ∧
      SimpleBindingHandler.getParticipantId danglingConn.source = none) ∧
    SimpleBindingHandler.checkAndAddConnectionData danglingConn = (danglingConn.bo, 0) := by
  refine ⟨by decide, ?_⟩
  exact C5_unresolved_pool_reference_aborts_without_writing danglingConn
    (by decide) (Or.inl (by decide))

/-! ## Claim C1 -/

/-- Without a business object nothing is stored. -/
theorem getStoredType_bo_none (c : Conn) (hb : c.bo = none) :
    SimpleBindingHandler.getStoredType c = none := by
  unfold SimpleBindingHandler.getStoredType
  rw [hb]

/-- Unfolding `getStoredType` under a present business object. -/
theorem getStoredType_bo_some (c : Conn) (bo : BO) (hb : c.bo = some bo) :
    SimpleBindingHandler.getStoredType c =
      match ExtensionService.findExtension bo EXTENSION_TYPES.TYPE with
      | none => none
      | some e => if e.body = "" then none else some e.body := by
  unfold SimpleBindingHandler.getStoredType
  rw [hb]

/-- A stored `binding`/`unbinding` classification makes `hasConnectionData`
report true. -/
theorem hasConnectionData_of_storedType (c : Conn) (k : String)
    (hk : k = TASK_TYPE_KEYS.BINDING ∨ k = TASK_TYPE_KEYS.UNBINDING)
    (h : SimpleBindingHandler.getStoredType c = some k) :
    SimpleBindingHandler.hasConnectionData c.bo = true := by
  cases hb : c.bo with
  | none => rw [getStoredType_bo_none c hb] at h; cases h
  | some bo =>
      rw [getStoredType_bo_some c bo hb] at h
      cases hf : ExtensionService.findExtension bo EXTENSION_TYPES.TYPE with
      | none => rw [hf] at h; cases h
      | some e =>
          rw [hf] at h
          have h' : (if e.body = "" then none else some e.body) = some k := h
          by_cases he : e.body = ""
          · rw [if_pos he] at h'; cases h'
          · rw [if_neg he] at h'
            injection h' with hbody
            have hf' : (ExtensionService.getExtensionValues bo).find?
                (fun v => decide (v.type = EXTENSION_TYPES.TYPE)) = some e := hf
            have hmem : e ∈ ExtensionService.getExtensionValues bo :=
              List.mem_of_find?_eq_some hf'
            have hty : e.type = EXTENSION_TYPES.TYPE := by
              simpa using List.find?_some hf'
            unfold SimpleBindingHandler.hasConnectionData
            rw [List.any_eq_true]
            refine ⟨e, hmem, decide_eq_true ⟨hty, ?_⟩⟩
            rcases hk with rfl | rfl
            · exact Or.inl hbody
            · exact Or.inr hbody

/-- When `needsUpdate` reports false, the stored classification equals the
derived one. -/
theorem storedType_eq_derived_of_no_update (c : Conn) (bo : BO) (hb : c.bo = some bo)
    (h : SimpleBindingHandler.needsUpdate c = false) :
    SimpleBindingHandler.getStoredType c = SimpleBindingHandler.determineConnectionType c := by
  unfold SimpleBindingHandler.needsUpdate at h
  rw [hb] at h
  simp at h
  exact h.1

/-- Claim C1: the derived classification is `binding` iff both endpoints are
tasks of current kind Binding, `unbinding` iff both are of kind Unbinding,
and `None` (null) otherwise — in particular when an endpoint is missing or
not a task; and whenever the derived classification is `None`, running the
reconciliation pass on an engine-shaped stored state leaves the
classification and cached pool-reference entries absent entirely. -/
theorem C1_classification_rule_and_absence_when_none :
    (∀ c : Conn,
      (SimpleBindingHandler.determineConnectionType c = some TASK_TYPE_KEYS.BINDING ↔
        bothTaskEndpointsOfKind c TASK_TYPE_KEYS.BINDING = true) ∧
      (SimpleBindingHandler.determineConnectionType c = some TASK_TYPE_KEYS.UNBINDING ↔
        bothTaskEndpointsOfKind c TASK_TYPE_KEYS.UNBINDING = true) ∧
      (SimpleBindingHandler.determineConnectionType c = none ↔
        (bothTaskEndpointsOfKind c TASK_TYPE_KEYS.BINDING = false ∧
         bothTaskEndpointsOfKind c TASK_TYPE_KEYS.UNBINDING = false))) ∧
    (∀ c : Conn, engineShapedStored c →
      SimpleBindingHandler.determineConnectionType c = none →
      noClassificationEntries (SimpleBindingHandler.checkAndAddConnectionData c).1 = true) := by
  constructor
  · intro c
    cases hs : c.source with
    | none =>
        cases ht : c.target <;>
          simp [SimpleBindingHandler.determineConnectionType, bothTaskEndpointsOfKind, hs, ht]
    | some s =>
        cases ht : c.target with
        | none =>
            simp [SimpleBindingHandler.determineConnectionType, bothTaskEndpointsOfKind, hs, ht]
        | some t =>
            simp only [SimpleBindingHandler.determineConnectionType, bothTaskEndpointsOfKind,
              hs, ht, TASK_TYPE_KEYS.BINDING, TASK_TYPE_KEYS.UNBINDING]
            split_ifs with h1 h2 h3 h4 <;>
              first
              | (rcases h1 with h | h <;> simp_all)
              | (rcases h2 with h | h <;> simp_all)
              | simp_all
  · intro c hwf hdct
    by_cases hnu : SimpleBindingHandler.needsUpdate c = true
    · unfold SimpleBindingHandler.checkAndAddConnectionData
      rw [hnu, hdct]
      simp only [Bool.not_true, Bool.false_eq_true, if_false]
      by_cases hcd : SimpleBindingHandler.hasConnectionData c.bo = true
      · rw [if_pos hcd]
        cases hb : c.bo with
        | none => simp [SimpleBindingHandler.clearAndUpdate, hb, noClassificationEntries]
        | some bo =>
            simp only [SimpleBindingHandler.clearAndUpdate, hb]
            unfold noClassificationEntries SimpleBindingHandler.clearConnectionData
            cases he : bo.exts with
            | none => simp [ExtensionService.getExtensionValues, he]
            | some vs =>
                simp [ExtensionService.getExtensionValues, he, List.all_eq_true, List.mem_filter]
      · rw [if_neg hcd]
        rcases hwf with h | h | h
        · exact h
        · exact absurd (hasConnectionData_of_storedType c _ (Or.inl rfl) h) hcd
        · exact absurd (hasConnectionData_of_storedType c _ (Or.inr rfl) h) hcd
    · have hnu' : SimpleBindingHandler.needsUpdate c = false := by
        cases h : SimpleBindingHandler.needsUpdate c
        · rfl
        · exact absurd h hnu
      have hres : SimpleBindingHandler.checkAndAddConnectionData c = (c.bo, 0) := by
        simp [SimpleBindingHandler.checkAndAddConnectionData, hnu']
      rw [hres]
      rcases hwf with h | h | h
      · exact h
      all_goals {
        exfalso
        cases hb : c.bo with
        | none => rw [getStoredType_bo_none c hb] at h; cases h
        | some bo =>
            rw [storedType_eq_derived_of_no_update c bo hb hnu', hdct] at h
            cases h }

/-- Claim C1 (witness): the invariant applied to the stale connection whose
stored `binding` triple no longer matches its endpoints (the target's kind
changed to Movement): the derived classification is `None` and after the
reconciliation pass the entries are absent entirely. -/
theorem C1_witness :
    engineShapedStored staleConn ∧
    SimpleBindingHandler.determineConnectionType staleConn = none ∧
    noClassificationEntries (SimpleBindingHandler.checkAndAddConnectionData staleConn).1 = true := by
  refine ⟨Or.inr (Or.inl (by decide)), by decide, ?_⟩
  exact C1_classification_rule_and_absence_when_none.2 staleConn
    (Or.inr (Or.inl (by decide))) (by decide)

/-! ## Claim C10 (amended) -/

/-- Elements found in the registry belong to it. -/
theorem elemById_mem {reg : List VElem} {i : String} {e : VElem}
    (h : elemById reg i = some e) : e ∈ reg := by
  have h' : reg.find? (fun x => decide (x.id = i)) = some e := h
  exact List.mem_of_find?_eq_some h'

/-- Elements found in the registry carry the id they were looked up by. -/
theorem elemById_id {reg : List VElem} {i : String} {e : VElem}
    (h : elemById reg i = some e) : e.id = i := by
  have h' : reg.find? (fun x => decide (x.id = i)) = some e := h
  simpa using List.find?_some h'

/-- When no sequence flow of the diagram has `tid` as its source, one
incoming-flow step of the upstream traversal collects no element with id
`tid`. -/
theorem visitUpstreamFlow_acc_inv (reg : List VElem) (poolId tid : String)
    (H : ∀ f ∈ reg, f.ty = "bpmn:SequenceFlow" → f.source ≠ some tid)
    (flow : VElem) (hflow : flow ∈ reg) (hty : flow.ty = "bpmn:SequenceFlow")
    (sa : List String × List VElem) (hacc : ∀ e ∈ sa.2, e.id ≠ tid) :
    ∀ e ∈ (ValidationService.visitUpstreamFlow reg poolId sa flow).2, e.id ≠ tid := by
  intro e he
  unfold ValidationService.visitUpstreamFlow at he
  split at he
  · exact hacc e he
  · rename_i sid hsrc
    split at he
    · exact hacc e he
    · rename_i src hlook
      have hsid : sid ≠ tid := by
        intro hcontra
        exact H flow hflow hty (by rw [hsrc, hcontra])
      split at he
      · exact hacc e he
      · simp only [] at he
        split at he
        · rcases List.mem_append.mp he with h | h
          · exact hacc e h
          · rw [List.mem_singleton.mp h, elemById_id hlook]
            exact hsid
        · exact hacc e he

/-- The incoming-flow fold preserves the collected-ids invariant. -/
theorem foldl_visitUpstream_inv (reg : List VElem) (poolId tid : String)
    (H : ∀ f ∈ reg, f.ty = "bpmn:SequenceFlow" → f.source ≠ some tid)
    (flows : List VElem) :
    (∀ f ∈ flows, f ∈ reg ∧ f.ty = "bpmn:SequenceFlow") →
    ∀ sa : List String × List VElem, (∀ e ∈ sa.2, e.id ≠ tid) →
    ∀ e ∈ (flows.foldl (ValidationService.visitUpstreamFlow reg poolId) sa).2, e.id ≠ tid := by
  induction flows with
  | nil => intro _ sa hacc e he; exact hacc e he
  | cons f fs ih =>
      intro hmem sa hacc
      rw [List.foldl_cons]
      refine ih (fun g hg => hmem g (List.mem_cons_of_mem f hg)) _ ?_
      exact visitUpstreamFlow_acc_inv reg poolId tid H f
        (hmem f (List.mem_cons_self f fs)).1 (hmem f (List.mem_cons_self f fs)).2 sa hacc

/-- The whole upstream traversal loop preserves the collected-ids
invariant. -/
theorem upstreamLoop_acc_inv (reg : List VElem) (poolId tid : String)
    (H : ∀ f ∈ reg, f.ty = "bpmn:SequenceFlow" → f.source ≠ some tid) :
    ∀ (fuel : Nat) (stack visited : List String) (acc : List VElem),
      (∀ e ∈ acc, e.id ≠ tid) →
      ∀ e ∈ ValidationService.upstreamLoop reg poolId fuel stack visited acc, e.id ≠ tid := by
  intro fuel
  induction fuel with
  | zero => intro stack visited acc hacc e he; exact hacc e he
  | succ n ih =>
      intro stack visited acc hacc e he
      cases stack with
      | nil => exact hacc e he
      | cons nodeId rest =>
          unfold ValidationService.upstreamLoop at he
          split at he
          · exact ih rest visited acc hacc e he
          · rename_i node hlook
            split at he
            · exact ih rest visited acc hacc e he
            · simp only [] at he
              refine ih _ _ _ ?_ e he
              refine foldl_visitUpstream_inv reg poolId tid H _ ?_ (rest, acc) hacc
              intro f hf
              rcases List.mem_filter.mp hf with ⟨hf1, hf2⟩
              rcases List.mem_filterMap.mp hf1 with ⟨a, _, ha2⟩
              exact ⟨elemById_mem ha2, of_decide_eq_true hf2⟩

/-- Claim C10 (amended): `findUpstreamBindingTasks(t)` can contain `t`
itself only when some sequence flow of the diagram has `t` as its source
(as on a cycle through `t`, where `t`'s own kind does influence the
result); when no sequence flow leaves `t`, the result never contains `t`,
and when `t` is not contained in any pool the result is the empty set. -/
theorem C10_amended_self_membership_needs_outgoing_flow :
    (∀ (reg : List VElem) (el : VElem),
        ValidationService.getContainingParticipant reg el = none →
        ValidationService.findUpstreamBindingTasks reg el = []) ∧
    (∀ (reg : List VElem) (el : VElem),
        (∀ f ∈ reg, f.ty = "bpmn:SequenceFlow" → f.source ≠ some el.id) →
        ∀ e ∈ ValidationService.findUpstreamBindingTasks reg el, e.id ≠ el.id) := by
  constructor
  · intro reg el h
    unfold ValidationService.findUpstreamBindingTasks
    rw [h]
  · intro reg el H e he
    unfold ValidationService.findUpstreamBindingTasks at he
    split at he
    · exact absurd he (List.not_mem_nil e)
    · rename_i pool hp
      exact upstreamLoop_acc_inv reg pool.id el.id H _ _ _ _
        (fun x hx => absurd hx (List.not_mem_nil x)) e he

/-- Claim C10 (amended, witness): applied to the pool-less task `Z` and to
the chain diagram's task `C`, which no sequence flow leaves. -/
theorem C10_amended_witness :
    (ValidationService.getContainingParticipant [] noPoolTask = none ∧
      ValidationService.findUpstreamBindingTasks [] noPoolTask = []) ∧
    ((∀ f ∈ regChain, f.ty = "bpmn:SequenceFlow" → f.source ≠ some taskC.id) ∧
      ∀ e ∈ ValidationService.findUpstreamBindingTasks regChain taskC, e.id ≠ taskC.id) := by
  constructor
  · exact ⟨by decide, C10_amended_self_membership_needs_outgoing_flow.1 [] noPoolTask (by decide)⟩
  · have H : ∀ f ∈ regChain, f.ty = "bpmn:SequenceFlow" → f.source ≠ some taskC.id := by decide
    exact ⟨H, fun e he => C10_amended_self_membership_needs_outgoing_flow.2 regChain taskC H e he⟩

/-! ## Claim C9 -/

/-- In a duplicate-free list, dropping the one occurrence of `c` shortens
the list by exactly one. -/
theorem length_filter_ne_of_nodup {α : Type} [DecidableEq α] (l : List α) (c : α)
    (hn : l.Nodup) (hc : c ∈ l) :
    (l.filter (fun e => e ≠ c)).length = l.length - 1 := by
  induction l with
  | nil => cases hc
  | cons a as ih =>
      rw [List.filter_cons]
      rcases List.mem_cons.mp hc with rfl | hmem
      · have hnotmem : c ∉ as := (List.nodup_cons.mp hn).1
        simp
        exact fun b hb h2 => hnotmem (h2 ▸ hb)
      · have hne : a ≠ c := fun h => (List.nodup_cons.mp hn).1 (h ▸ hmem)
        have hpos : 0 < as.length := List.length_pos_of_mem hmem
        have htail := ih (List.nodup_cons.mp hn).2 hmem
        simp at htail
        simp [hne]
        omega

/-- Removing a batch of entries that contains `c` and otherwise only entries
of other types drops exactly one entry from the type-`ty` sublist. -/
theorem count_filter_remove_pair (l : List ExtEntry) (rem : List ExtEntry) (ty : String)
    (c : ExtEntry) (hn : l.Nodup) (hc : c ∈ l) (hctype : c.type = ty)
    (hremc : c ∈ rem) (hother : ∀ r ∈ rem, r ≠ c → r.type ≠ ty) :
    ((l.filter (fun e => ¬ rem.contains e)).filter (fun e => e.type = ty)).length =
      (l.filter (fun e => e.type = ty)).length - 1 := by
  rw [List.filter_comm]
  have hcongr : (l.filter (fun e => e.type = ty)).filter (fun e => ¬ rem.contains e) =
      (l.filter (fun e => e.type = ty)).filter (fun e => e ≠ c) := by
    refine List.filter_congr ?_
    intro e he
    have hety : e.type = ty := of_decide_eq_true (List.mem_filter.mp he).2
    by_cases hec : e = c
    · subst hec
      simp [hremc]
    · have hnotin : e ∉ rem := fun hin => hother e hin hec hety
      simp [hec, hnotin]
  rw [hcongr]
  exact length_filter_ne_of_nodup _ c (hn.filter _)
    (List.mem_filter.mpr ⟨hc, decide_eq_true hctype⟩)

/-- `removeAssignment` keeps the condition and value sublists equally long:
the index hits both lists or neither, and object identity (distinct `eid`s)
makes the removal drop exactly the two targeted entries. -/
theorem removeAssignment_preserves_pairing (bo : BO) (i : Nat)
    (hnodup : ((bo.exts.getD []).map ExtEntry.eid).Nodup)
    (hlen : AssignmentService.conditionCount bo = AssignmentService.valueCount bo) :
    AssignmentService.conditionCount (AssignmentService.removeAssignment bo i) =
      AssignmentService.valueCount (AssignmentService.removeAssignment bo i) := by
  cases hx : bo.exts with
  | none =>
      have hres : AssignmentService.removeAssignment bo i = bo := by
        unfold AssignmentService.removeAssignment; rw [hx]
      rw [hres]; exact hlen
  | some l =>
      have hres : AssignmentService.removeAssignment bo i =
          { bo with exts := some (l.filter (fun e =>
              ¬ (((l.filter (fun ext => ext.type = EXTENSION_TYPES.TASK_ASSIGNMENT)).get? i).toList ++
                 ((l.filter (fun ext => ext.type = EXTENSION_TYPES.TASK_ASSIGNMENT_REACHED)).get? i).toList).contains e)) } := by
        unfold AssignmentService.removeAssignment; rw [hx]
      have hln : l.Nodup := by
        have h' : (l.map ExtEntry.eid).Nodup := by simpa [hx] using hnodup
        exact h'.of_map
      have hlen' : (l.filter (fun ext => ext.type = EXTENSION_TYPES.TASK_ASSIGNMENT)).length =
          (l.filter (fun ext => ext.type = EXTENSION_TYPES.TASK_ASSIGNMENT_REACHED)).length := by
        simpa [AssignmentService.conditionCount, AssignmentService.valueCount, hx] using hlen
      rw [hres]
      unfold AssignmentService.conditionCount AssignmentService.valueCount
      simp only [Option.getD_some]
      cases hgc : (l.filter (fun ext => ext.type = EXTENSION_TYPES.TASK_ASSIGNMENT)).get? i with
      | none =>
          have hgv : (l.filter (fun ext =>
              ext.type = EXTENSION_TYPES.TASK_ASSIGNMENT_REACHED)).get? i = none := by
            have hle := List.get?_eq_none.mp hgc
            exact List.get?_eq_none.mpr (hlen' ▸ hle)
          rw [hgv]
          simp only [Option.toList_none, List.append_nil, List.contains_nil]
          simpa using hlen'
      | some c =>
          have hlt : i < (l.filter (fun ext =>
              ext.type = EXTENSION_TYPES.TASK_ASSIGNMENT)).length := by
            by_contra hcon
            push_neg at hcon
            rw [List.get?_eq_none.mpr hcon] at hgc
            cases hgc
          have hltv : i < (l.filter (fun ext =>
              ext.type = EXTENSION_TYPES.TASK_ASSIGNMENT_REACHED)).length := hlen' ▸ hlt
          have hgv := List.get?_eq_get hltv
          set v := (l.filter (fun ext =>
            ext.type = EXTENSION_TYPES.TASK_ASSIGNMENT_REACHED)).get ⟨i, hltv⟩ with hv
          have hcmemf : c ∈ l.filter (fun ext =>
              ext.type = EXTENSION_TYPES.TASK_ASSIGNMENT) := List.get?_mem hgc
          have hvmemf : v ∈ l.filter (fun ext =>
              ext.type = EXTENSION_TYPES.TASK_ASSIGNMENT_REACHED) := List.get?_mem hgv
          have hcmem : c ∈ l := (List.mem_filter.mp hcmemf).1
          have hctype : c.type = EXTENSION_TYPES.TASK_ASSIGNMENT :=
            of_decide_eq_true (List.mem_filter.mp hcmemf).2
          have hvmem : v ∈ l := (List.mem_filter.mp hvmemf).1
          have hvtype : v.type = EXTENSION_TYPES.TASK_ASSIGNMENT_REACHED :=
            of_decide_eq_true (List.mem_filter.mp hvmemf).2
          rw [hgv]
          simp only [Option.toList_some, List.cons_append, List.nil_append, List.singleton_append]
          have hA := count_filter_remove_pair l [c, v] EXTENSION_TYPES.TASK_ASSIGNMENT c hln
            hcmem hctype (List.mem_cons_self c [v])
            (by
              intro r hr hrne
              rcases List.mem_cons.mp hr with rfl | hr2
              · exact absurd rfl hrne
              · rw [List.mem_singleton.mp hr2, hvtype]
                decide)
          have hB := count_filter_remove_pair l [c, v] EXTENSION_TYPES.TASK_ASSIGNMENT_REACHED v hln
            hvmem hvtype (List.mem_cons_of_mem c (List.mem_singleton.mpr rfl))
            (by
              intro r hr hrne
              rcases List.mem_cons.mp hr with rfl | hr2
              · rw [hctype]; decide
              · exact absurd (List.mem_singleton.mp hr2) hrne)
          rw [hA, hB, hlen']

/-- Claim C9: the condition and value metadata lists stay equally long under
every core-driven assignment mutation (`addAssignment` appends one entry to
each; `removeAssignment` on an identity-distinct store drops one of each or
none), and removal is positional: after add at 0, add at 1, remove at 0,
index 0 holds the pair formerly at index 1 and the lists are equally long. -/
theorem C9_parallel_assignment_lists_and_positional_removal :
    (∀ (bo : BO) (nextId : Nat) (condition value : String),
        AssignmentService.conditionCount bo = AssignmentService.valueCount bo →
        AssignmentService.conditionCount
            (AssignmentService.addAssignment bo nextId condition value).1 =
          AssignmentService.valueCount
            (AssignmentService.addAssignment bo nextId condition value).1) ∧
    (∀ (bo : BO) (i : Nat),
        ((bo.exts.getD []).map ExtEntry.eid).Nodup →
        AssignmentService.conditionCount bo = AssignmentService.valueCount bo →
        AssignmentService.conditionCount (AssignmentService.removeAssignment bo i) =
          AssignmentService.valueCount (AssignmentService.removeAssignment bo i)) ∧
    (AssignmentService.getAssignments assignmentScenarioResult =
        [{ aid := "assignment_0", condition := "q.z<2", value := "q.w=1" }] ∧
      AssignmentService.conditionCount assignmentScenarioResult =
        AssignmentService.valueCount assignmentScenarioResult) := by
  refine ⟨?_, removeAssignment_preserves_pairing, by decide⟩
  intro bo nextId condition value hlen
  simp only [AssignmentService.conditionCount, AssignmentService.valueCount,
    AssignmentService.addAssignment, EXTENSION_TYPES.TASK_ASSIGNMENT,
    EXTENSION_TYPES.TASK_ASSIGNMENT_REACHED] at hlen ⊢
  simp only [Option.getD_some, List.filter_append]
  simp [List.filter_cons, EXTENSION_TYPES.TASK_ASSIGNMENT, EXTENSION_TYPES.TASK_ASSIGNMENT_REACHED]
  omega

/-- Claim C9 (witness): both preservation statements applied to the concrete
two-assignment store of the scenario. -/
theorem C9_witness :
    (AssignmentService.conditionCount assignmentScenarioStep2.1 =
        AssignmentService.valueCount assignmentScenarioStep2.1 ∧
      AssignmentService.conditionCount
          (AssignmentService.addAssignment assignmentScenarioStep2.1 4 "r.a>0" "r.b=1").1 =
        AssignmentService.valueCount
          (AssignmentService.addAssignment assignmentScenarioStep2.1 4 "r.a>0" "r.b=1").1) ∧
    (((assignmentScenarioStep2.1.exts.getD []).map ExtEntry.eid).Nodup ∧
      AssignmentService.conditionCount
          (AssignmentService.removeAssignment assignmentScenarioStep2.1 0) =
        AssignmentService.valueCount
          (AssignmentService.removeAssignment assignmentScenarioStep2.1 0)) := by
  constructor
  · exact ⟨by decide, C9_parallel_assignment_lists_and_positional_removal.1
      assignmentScenarioStep2.1 4 "r.a>0" "r.b=1" (by decide)⟩
  · exact ⟨by decide, C9_parallel_assignment_lists_and_positional_removal.2.1
      assignmentScenarioStep2.1 0 (by decide) (by decide)⟩

